import Mathlib

/-!
Shallow embedding of the ficha review workflow of the Proyecto-enfermeria
repository (src/accounts/models.py and src/accounts/views.py), together with
proofs about the field-review ledger, the finalization aggregator, the ficha
lifecycle and the document replacement policy.

Conventions of the embedding:
* Django querysets over the rows of one ficha are Lean lists of structure
  values; filters/updates are list filters/maps.
* A Python string taken from request.POST (already stripped) is a Lean
  String; the empty string plays the role of both "" and None, matching
  Python truthiness tests (`if not s`, `s or None`).
* HTTP error responses are modelled as a Bool success flag or an
  Except String result.
-/

namespace Enfermeria

/-- Ficha global status enumeration, `StudentFicha.Estado` in models.py. -/
inductive Estado
  | OK
  | DRAFT
  | ENVIADA
  | EN_REVISION
  | OBSERVADA
  | APROBADA
  | RECHAZADA
deriving DecidableEq, Repr

/-- One row of the per-field review ledger (`FieldReview` model, db table
student_field_review).  `sectionLabel` stands for the model field `section`
(a Lean keyword).  `notes = ""` models both NULL and the empty string, which
Python treats identically in every truthiness test of views.py. -/
structure FieldReviewRow where
  sectionLabel : String
  field_key : String
  status : String
  notes : String
deriving DecidableEq, Repr

/-- Rows of the ledger whose status is REVISADO_NO_OK, i.e. the queryset
`ficha.field_reviews.filter(status="REVISADO_NO_OK")`. -/
def notOkRows (ledger : List FieldReviewRow) : List FieldReviewRow :=
  ledger.filter (fun r => r.status == "REVISADO_NO_OK")

/-- Hardcoded legacy field keys deleted by FinalizeReviewAPI.post before
aggregating (the `fantasmas` list in views.py). -/
def fantasmas : List String :=
  ["Medicamentos diarios",
   "Otros antecedentes",
   "Enfermedades crónicas",
   "Alergias",
   "Alergias (detalle)",
   "Crónicas (detalle)"]

/-- Deletion step `ficha.field_reviews.filter(field_key__in=fantasmas).delete()`
of FinalizeReviewAPI.post: the rows whose key is one of the legacy labels are
removed from the ledger. -/
def purgeFantasmas (ledger : List FieldReviewRow) : List FieldReviewRow :=
  ledger.filter (fun r => !(fantasmas.contains r.field_key))

/-- One line of the consolidated rejection report built by
FinalizeReviewAPI.post for a rejected row: `- {section} • {field_key}` with
`: {notes}` appended when notes are nonempty. -/
def rejectLine (r : FieldReviewRow) : String :=
  let base := "- " ++ r.sectionLabel ++ " • " ++ r.field_key
  if r.notes == "" then base else base ++ ": " ++ r.notes

/-- Everything FinalizeReviewAPI.post stores or reports: the ledger after the
fantasma purge, the stored `estado_global`, the stored
`observaciones_globales`, and the list of rejected rows used for the report
and the notification email. -/
structure FinalizeResult where
  ledger : List FieldReviewRow
  estado : Estado
  observaciones : Option String
  rechazados : List FieldReviewRow
deriving DecidableEq, Repr

/-- FinalizeReviewAPI.post of views.py: purge the fantasma keys, query the
remaining REVISADO_NO_OK rows, set the global outcome (RECHAZADA when any
remain, APROBADA otherwise) and build the consolidated notes string.
`global_notes` is the stripped POST parameter. -/
def finalizeReview (ledger : List FieldReviewRow) (global_notes : String) :
    FinalizeResult :=
  let led := purgeFantasmas ledger
  let qsRejected := notOkRows led
  if qsRejected.isEmpty then
    { ledger := led
      estado := Estado.APROBADA
      observaciones := if global_notes == "" then none else some global_notes
      rechazados := [] }
  else
    let detalles := qsRejected.map rejectLine
    let detalles :=
      if global_notes == "" then detalles
      else detalles ++ ["", "Comentario general: " ++ global_notes]
    { ledger := led
      estado := Estado.RECHAZADA
      observaciones := some (String.intercalate "\n" detalles)
      rechazados := qsRejected }

/-- Django `update_or_create` keyed by (ficha, field_key) on the ledger of one
ficha: replace the row with the given key when one exists, append otherwise. -/
def updateOrCreate (ledger : List FieldReviewRow) (row : FieldReviewRow) :
    List FieldReviewRow :=
  if ledger.any (fun r => r.field_key == row.field_key) then
    ledger.map (fun r => if r.field_key == row.field_key then row else r)
  else
    ledger ++ [row]

/-- FieldReviewAPI.post of views.py: validates the stripped POST parameters
(section and field_key nonempty, status one of the two allowed values) and
upserts the decision; notes are stored only for REVISADO_NO_OK and cleared to
"" otherwise. -/
def fieldReviewPost (ledger : List FieldReviewRow)
    (sec key status notes : String) : Except String (List FieldReviewRow) :=
  if sec == "" || key == "" ||
      !(status == "REVISADO_OK" || status == "REVISADO_NO_OK") then
    Except.error "Datos incompletos."
  else
    Except.ok (updateOrCreate ledger
      { sectionLabel := sec
        field_key := key
        status := status
        notes := if status == "REVISADO_NO_OK" then notes else "" })

/-- Mutable per-ficha state touched by the reviewer views: the columns
`estado_global`, `observaciones_globales`, `revisado_por`, `revisado_en` of
StudentFicha.  Reviewer ids and timestamps are abstracted as Nat. -/
structure FichaState where
  estado_global : Estado
  observaciones_globales : Option String
  revisado_por : Option Nat
  revisado_en : Option Nat
deriving DecidableEq, Repr

/-- One StudentDocuments row of a ficha: primary key, DocumentItem slot value
and review status. -/
structure DocRow where
  id : Nat
  item : String
  review_status : String
deriving DecidableEq, Repr

/-- ApproveFichaView.post of views.py: when any document of the ficha has
review_status other than REVISADO_OK it answers an error (flag false) and
writes nothing; otherwise it stores APROBADA with reviewer and timestamp.
The Bool is the `ok` flag of the JSON response. -/
def approveFicha (f : FichaState) (docs : List DocRow) (reviewer now : Nat) :
    FichaState × Bool :=
  if docs.any (fun d => !(d.review_status == "REVISADO_OK")) then
    (f, false)
  else
    ({ f with estado_global := Estado.APROBADA
              revisado_por := some reviewer
              revisado_en := some now }, true)

/-- ObserveFichaView.post of views.py: unconditionally stores OBSERVADA, the
notes (`notes or None`), the reviewer and the timestamp. -/
def observeFicha (f : FichaState) (notes : String) (reviewer now : Nat) :
    FichaState :=
  { f with estado_global := Estado.OBSERVADA
           observaciones_globales := if notes == "" then none else some notes
           revisado_por := some reviewer
           revisado_en := some now }

/-- Final status block of FichaView.post for a STUDENT user: the ficha status
is overwritten with ENVIADA when the `finalizar` POST flag is present and with
DRAFT otherwise, regardless of the prior status; no error path exists. -/
def fichaPostFinalize (f : FichaState) (finalizar : Bool) : FichaState :=
  { f with estado_global := if finalizar then Estado.ENVIADA else Estado.DRAFT }

/-- One StudentFicha row of a single student, as touched by the lifecycle
operations: primary key and the `is_activa` flag. -/
structure FichaRow where
  id : Nat
  is_activa : Bool
deriving DecidableEq, Repr

/-- Django save of a row: update in place when the primary key exists,
append otherwise. -/
def upsertFicha (s : List FichaRow) (f : FichaRow) : List FichaRow :=
  if s.any (fun r => r.id == f.id) then
    s.map (fun r => if r.id == f.id then f else r)
  else
    s ++ [f]

/-- Queryset update of StudentFicha.save: every active row other than the one
just saved is set inactive
(`filter(user_id=..., is_activa=True).exclude(pk=self.pk).update(is_activa=False)`). -/
def deactivateOthers (s : List FichaRow) (keep : Nat) : List FichaRow :=
  s.map (fun r =>
    if !(r.id == keep) && r.is_activa then { r with is_activa := false } else r)

/-- StudentFicha.save of models.py: persist the row, then, when it is being
saved active, deactivate every other active row of the same student. -/
def fichaSave (s : List FichaRow) (f : FichaRow) : List FichaRow :=
  let s1 := upsertFicha s f
  if f.is_activa then deactivateOthers s1 f.id else s1

/-- Fresh primary key for a newly created row: one past the largest id. -/
def freshId (s : List FichaRow) : Nat :=
  s.foldr (fun r m => max r.id m) 0 + 1

/-- Lifecycle calls of the claim: `_get_or_create_active_ficha` (creation of
an active DRAFT ficha when none is active) and activation (a save with
is_activa=True). -/
inductive FichaOp
  | getOrCreate
  | activate (fid : Nat)
deriving DecidableEq, Repr

/-- Interpretation of one lifecycle call against the student's ficha rows. -/
def applyOp (s : List FichaRow) : FichaOp → List FichaRow
  | FichaOp.getOrCreate =>
      if s.any (fun r => r.is_activa) then s
      else fichaSave s { id := freshId s, is_activa := true }
  | FichaOp.activate fid => fichaSave s { id := fid, is_activa := true }

/-- Sequential execution of lifecycle calls. -/
def runOps (s : List FichaRow) (ops : List FichaOp) : List FichaRow :=
  ops.foldl applyOp s

/-- Number of rows of the student currently flagged active. -/
def countActive (s : List FichaRow) : Nat :=
  (s.filter (fun r => r.is_activa)).length

/-- One StudentDocumentBlob row: owning document id and content hash. -/
structure BlobRow where
  document_id : Nat
  sha256 : String
deriving DecidableEq, Repr

/-- Document rows and blob rows of one ficha. -/
structure DocState where
  docs : List DocRow
  blobs : List BlobRow
deriving DecidableEq, Repr

/-- Fresh primary key for a new document row. -/
def freshDocId (docs : List DocRow) : Nat :=
  docs.foldr (fun d m => max d.id m) 0 + 1

/-- The `_doc_create_with_blob` pipeline of views.py combined with
StudentDocuments.save and the post_save signal of models.py: creating a
document for (ficha, item) first deletes every existing sibling with the same
item — the delete cascades to their StudentDocumentBlob rows — then inserts
the new row with status ADJUNTADO and its blob. -/
def docCreateWithBlob (s : DocState) (item sha : String) : DocState :=
  let newId := freshDocId s.docs
  let doomedIds := (s.docs.filter (fun d => d.item == item)).map (fun d => d.id)
  { docs := s.docs.filter (fun d => !(d.item == item)) ++
      [{ id := newId, item := item, review_status := "ADJUNTADO" }]
    blobs := s.blobs.filter (fun b => !(doomedIds.contains b.document_id)) ++
      [{ document_id := newId, sha256 := sha }] }

/-- The `_delete_existing_docs` helper of views.py: delete every document of
the ficha whose item is in the list, cascading to their blobs. -/
def deleteExistingDocs (s : DocState) (items : List String) : DocState :=
  let doomedIds := (s.docs.filter (fun d => items.contains d.item)).map (fun d => d.id)
  { docs := s.docs.filter (fun d => !(items.contains d.item))
    blobs := s.blobs.filter (fun b => !(doomedIds.contains b.document_id)) }

/-- Loop body of the CI upload branch of FichaView.post: file at index 0 goes
to CI_FRENTE, every later file to CI_REVERSO.  Files are represented by their
content hashes. -/
def attachCiFiles (s : DocState) (files : List String) (idx : Nat) : DocState :=
  match files with
  | [] => s
  | f :: rest =>
      attachCiFiles
        (docCreateWithBlob s (if idx == 0 then "CI_FRENTE" else "CI_REVERSO") f)
        rest (idx + 1)

/-- CI branch of the document loop of FichaView.post: when ci_archivos[] is
nonempty, first delete every existing CI document (both slots), then attach
the files in order. -/
def processCiUpload (s : DocState) (files : List String) : DocState :=
  if files.isEmpty then s
  else attachCiFiles (deleteExistingDocs s ["CI_FRENTE", "CI_REVERSO"]) files 0

/-- Number of document rows in the two identification slots, the count taken
by `_save_ci_rule_guard`. -/
def ciCount (s : DocState) : Nat :=
  (s.docs.filter (fun d => d.item == "CI_FRENTE" || d.item == "CI_REVERSO")).length

/-- The `_save_ci_rule_guard` helper of views.py: raises only when strictly
more than two CI documents exist.  `true` means the guard passes silently. -/
def saveCiRuleGuard (s : DocState) : Bool :=
  !(decide (ciCount s > 2))

/-- Number of document rows of one item slot. -/
def countItem (s : DocState) (it : String) : Nat :=
  (s.docs.filter (fun d => d.item == it)).length

end Enfermeria

namespace Enfermeria

/-! ### Helper lemmas about the finalization aggregator -/

/-- Filtering for NOT_OK rows commutes with the fantasma purge. -/
theorem notOkRows_purgeFantasmas (L : List FieldReviewRow) :
    notOkRows (purgeFantasmas L) = purgeFantasmas (notOkRows L) := by
  simp only [notOkRows, purgeFantasmas, List.filter_filter]
  congr 1
  funext r
  exact Bool.and_comm _ _

/-- The fantasma purge is idempotent. -/
theorem purgeFantasmas_idem (L : List FieldReviewRow) :
    purgeFantasmas (purgeFantasmas L) = purgeFantasmas L := by
  simp [purgeFantasmas, List.filter_filter]

/-- The ledger left behind by finalize is exactly the purged ledger. -/
theorem finalizeReview_ledger (L : List FieldReviewRow) (notes : String) :
    (finalizeReview L notes).ledger = purgeFantasmas L := by
  simp only [finalizeReview]
  by_cases h : (notOkRows (purgeFantasmas L)).isEmpty <;> simp [h]

/-- The stored status of finalize, as a function of the purged NOT_OK rows. -/
theorem finalizeReview_estado (L : List FieldReviewRow) (notes : String) :
    (finalizeReview L notes).estado =
      if (notOkRows (purgeFantasmas L)).isEmpty then Estado.APROBADA
      else Estado.RECHAZADA := by
  simp only [finalizeReview]
  by_cases h : (notOkRows (purgeFantasmas L)).isEmpty <;> simp [h]

/-- The rejected-rows list reported by finalize. -/
theorem finalizeReview_rechazados (L : List FieldReviewRow) (notes : String) :
    (finalizeReview L notes).rechazados =
      if (notOkRows (purgeFantasmas L)).isEmpty then []
      else notOkRows (purgeFantasmas L) := by
  simp only [finalizeReview]
  by_cases h : (notOkRows (purgeFantasmas L)).isEmpty <;> simp [h]

/-- Emptiness of the purged NOT_OK rows, phrased over the original ledger. -/
theorem notOkRows_purge_isEmpty_iff (L : List FieldReviewRow) :
    (notOkRows (purgeFantasmas L)).isEmpty = true ↔
      ∀ r ∈ L, r.status = "REVISADO_NO_OK" → r.field_key ∈ fantasmas := by
  rw [List.isEmpty_iff]
  simp only [notOkRows, purgeFantasmas, List.filter_filter,
    List.filter_eq_nil_iff]
  constructor
  · intro h r hr hst
    by_contra hmem
    have := h r hr
    simp [hst, hmem] at this
  · intro h r hr
    by_cases hst : r.status = "REVISADO_NO_OK"
    · have := h r hr hst
      simp [this]
    · simp [hst]

end Enfermeria

namespace Enfermeria

/-! ### C1 — finalize outcome vs the NOT_OK set at call time -/

/-- C1 (counterexample): a ledger whose only row is a REVISADO_NO_OK review
stored under the legacy key "Alergias" has a nonempty NOT_OK set at call time,
yet finalize stores APROBADA, because the row is deleted by the fantasma purge
before aggregation.  This refutes the claim that the outcome is RECHAZADA
whenever the NOT_OK set at call time is nonempty. -/
theorem finalize_callTime_counterexample :
    notOkRows [⟨"Mórbidos", "Alergias", "REVISADO_NO_OK", "ilegible"⟩] ≠ [] ∧
    (finalizeReview [⟨"Mórbidos", "Alergias", "REVISADO_NO_OK", "ilegible"⟩] "").estado
      = Estado.APROBADA := by
  constructor
  · decide
  · rfl

/-- C1 (amended): finalize stores APROBADA exactly when every Field Review row
of the ficha that has status REVISADO_NO_OK at call time carries one of the six
legacy fantasma keys (equivalently, when the NOT_OK set remaining after the
fantasma purge is empty), and stores RECHAZADA in every other case. -/
theorem finalize_outcome (L : List FieldReviewRow) (notes : String) :
    ((finalizeReview L notes).estado = Estado.APROBADA ↔
      ∀ r ∈ L, r.status = "REVISADO_NO_OK" → r.field_key ∈ fantasmas) ∧
    ((finalizeReview L notes).estado = Estado.APROBADA ∨
      (finalizeReview L notes).estado = Estado.RECHAZADA) := by
  rw [finalizeReview_estado]
  by_cases h : (notOkRows (purgeFantasmas L)).isEmpty
  · rw [← notOkRows_purge_isEmpty_iff]
    simp [h]
  · rw [← notOkRows_purge_isEmpty_iff]
    simp [h]

/-- C1 (witness): concrete instance of the amended theorem. -/
theorem finalize_outcome_witness :
    ((finalizeReview [⟨"Generales", "rut", "REVISADO_NO_OK", "ilegible"⟩] "").estado
        = Estado.APROBADA ↔
      ∀ r ∈ [(⟨"Generales", "rut", "REVISADO_NO_OK", "ilegible"⟩ : FieldReviewRow)],
        r.status = "REVISADO_NO_OK" → r.field_key ∈ fantasmas) ∧
    ((finalizeReview [⟨"Generales", "rut", "REVISADO_NO_OK", "ilegible"⟩] "").estado
        = Estado.APROBADA ∨
      (finalizeReview [⟨"Generales", "rut", "REVISADO_NO_OK", "ilegible"⟩] "").estado
        = Estado.RECHAZADA) :=
  finalize_outcome [⟨"Generales", "rut", "REVISADO_NO_OK", "ilegible"⟩] ""

/-! ### C5 — the fantasma purge -/

/-- C5: finalize deletes every Field Review row keyed by one of the six legacy
labels before aggregating, so such a row is absent from the ledger after the
call, never appears among the rejected rows that feed the consolidated notes,
and a ledger whose NOT_OK rows all carry legacy keys is approved. -/
theorem fantasma_rows_ignored (L : List FieldReviewRow) (notes : String) :
    (∀ r ∈ (finalizeReview L notes).ledger, r.field_key ∉ fantasmas) ∧
    (∀ r ∈ (finalizeReview L notes).rechazados, r.field_key ∉ fantasmas) ∧
    ((∀ r ∈ notOkRows L, r.field_key ∈ fantasmas) →
      (finalizeReview L notes).estado = Estado.APROBADA) := by
  refine ⟨?_, ?_, ?_⟩
  · rw [finalizeReview_ledger]
    intro r hr
    have := List.of_mem_filter hr
    simpa using this
  · rw [finalizeReview_rechazados]
    by_cases h : (notOkRows (purgeFantasmas L)).isEmpty
    · simp [h]
    · simp only [h, if_neg, Bool.false_eq_true, not_false_iff, if_false]
      intro r hr
      rw [notOkRows_purgeFantasmas] at hr
      have := List.of_mem_filter hr
      simpa using this
  · intro hall
    rw [finalizeReview_estado]
    have : (notOkRows (purgeFantasmas L)).isEmpty = true := by
      rw [List.isEmpty_iff, notOkRows_purgeFantasmas, purgeFantasmas,
        List.filter_eq_nil_iff]
      intro r hr
      simpa using hall r hr
    simp [this]

/-- C5 (witness): concrete instance; the hypothesis of the third conjunct is
discharged on a ledger holding one NOT_OK row under a legacy key. -/
theorem fantasma_rows_ignored_witness :
    ((∀ r ∈ (finalizeReview [⟨"Mórbidos", "Crónicas (detalle)", "REVISADO_NO_OK", "x"⟩]
        "nota").ledger, r.field_key ∉ fantasmas) ∧
    (∀ r ∈ (finalizeReview [⟨"Mórbidos", "Crónicas (detalle)", "REVISADO_NO_OK", "x"⟩]
        "nota").rechazados, r.field_key ∉ fantasmas) ∧
    ((∀ r ∈ notOkRows [⟨"Mórbidos", "Crónicas (detalle)", "REVISADO_NO_OK", "x"⟩],
        r.field_key ∈ fantasmas) →
      (finalizeReview [⟨"Mórbidos", "Crónicas (detalle)", "REVISADO_NO_OK", "x"⟩]
        "nota").estado = Estado.APROBADA)) ∧
    (∀ r ∈ notOkRows [⟨"Mórbidos", "Crónicas (detalle)", "REVISADO_NO_OK", "x"⟩],
        r.field_key ∈ fantasmas) :=
  ⟨fantasma_rows_ignored [⟨"Mórbidos", "Crónicas (detalle)", "REVISADO_NO_OK", "x"⟩] "nota",
   by decide⟩

end Enfermeria

namespace Enfermeria

/-! ### C4 — ApproveFicha precondition -/

/-- C4: ApproveFichaView answers ok and stores APROBADA (with reviewer and
timestamp) exactly when every document of the ficha has review status
REVISADO_OK; when any document has a different status it answers an error and
the ficha row — status, reviewer, reviewed-at — is untouched. -/
theorem approveFicha_spec (f : FichaState) (docs : List DocRow)
    (reviewer now : Nat) :
    ((approveFicha f docs reviewer now).2 = true ↔
      ∀ d ∈ docs, d.review_status = "REVISADO_OK") ∧
    ((approveFicha f docs reviewer now).2 = false →
      (approveFicha f docs reviewer now).1 = f) ∧
    ((approveFicha f docs reviewer now).2 = true →
      (approveFicha f docs reviewer now).1 =
        { f with estado_global := Estado.APROBADA
                 revisado_por := some reviewer
                 revisado_en := some now }) := by
  by_cases h : docs.any (fun d => !(d.review_status == "REVISADO_OK"))
  · have hex : ¬ ∀ d ∈ docs, d.review_status = "REVISADO_OK" := by
      rw [List.any_eq_true] at h
      obtain ⟨d, hd, hne⟩ := h
      intro hall
      simp [hall d hd] at hne
    simp [approveFicha, h, hex]
  · have hall : ∀ d ∈ docs, d.review_status = "REVISADO_OK" := by
      intro d hd
      by_contra hne
      exact h (List.any_eq_true.mpr ⟨d, hd, by simpa using hne⟩)
    refine ⟨⟨fun _ => hall, fun _ => ?_⟩, ?_, ?_⟩ <;> simp [approveFicha, h]

/-- C4 (witness): concrete instance with one pending document, where the call
fails and leaves the ficha unchanged. -/
theorem approveFicha_spec_witness :
    (((approveFicha ⟨Estado.EN_REVISION, none, none, none⟩
        [⟨1, "CI_FRENTE", "ADJUNTADO"⟩] 3 4).2 = true ↔
      ∀ d ∈ [(⟨1, "CI_FRENTE", "ADJUNTADO"⟩ : DocRow)],
        d.review_status = "REVISADO_OK") ∧
    ((approveFicha ⟨Estado.EN_REVISION, none, none, none⟩
        [⟨1, "CI_FRENTE", "ADJUNTADO"⟩] 3 4).2 = false →
      (approveFicha ⟨Estado.EN_REVISION, none, none, none⟩
        [⟨1, "CI_FRENTE", "ADJUNTADO"⟩] 3 4).1 = ⟨Estado.EN_REVISION, none, none, none⟩) ∧
    ((approveFicha ⟨Estado.EN_REVISION, none, none, none⟩
        [⟨1, "CI_FRENTE", "ADJUNTADO"⟩] 3 4).2 = true →
      (approveFicha ⟨Estado.EN_REVISION, none, none, none⟩
        [⟨1, "CI_FRENTE", "ADJUNTADO"⟩] 3 4).1 =
        { (⟨Estado.EN_REVISION, none, none, none⟩ : FichaState) with
            estado_global := Estado.APROBADA
            revisado_por := some 3
            revisado_en := some 4 })) ∧
    (approveFicha ⟨Estado.EN_REVISION, none, none, none⟩
        [⟨1, "CI_FRENTE", "ADJUNTADO"⟩] 3 4).2 = false :=
  ⟨approveFicha_spec ⟨Estado.EN_REVISION, none, none, none⟩
      [⟨1, "CI_FRENTE", "ADJUNTADO"⟩] 3 4,
   by decide⟩

/-! ### C9 — submit has no DRAFT guard -/

/-- C9 (counterexample): FichaView.post invoked by a student with the
finalizar flag on a ficha whose status is APROBADA (not DRAFT) reports no
error and silently overwrites the status with ENVIADA, refuting the claim
that submit from a non-DRAFT status is a reported error that leaves the
status unchanged. -/
theorem submit_guard_counterexample :
    (fichaPostFinalize ⟨Estado.APROBADA, none, some 3, some 4⟩ true).estado_global
      = Estado.ENVIADA ∧
    (fichaPostFinalize ⟨Estado.APROBADA, none, some 3, some 4⟩ true).estado_global
      ≠ Estado.APROBADA ∧
    Estado.APROBADA ≠ Estado.DRAFT := by decide

/-- C9 (amended): the student save path of FichaView.post overwrites the ficha
status unconditionally — ENVIADA when the finalizar flag is posted, DRAFT
otherwise — for every prior status, with no error path and no guard; the
remaining review columns are left untouched. -/
theorem submit_overwrites_status (f : FichaState) (finalizar : Bool) :
    (fichaPostFinalize f finalizar).estado_global
      = (if finalizar then Estado.ENVIADA else Estado.DRAFT) ∧
    (fichaPostFinalize f finalizar).observaciones_globales = f.observaciones_globales ∧
    (fichaPostFinalize f finalizar).revisado_por = f.revisado_por ∧
    (fichaPostFinalize f finalizar).revisado_en = f.revisado_en := by
  cases finalizar <;> simp [fichaPostFinalize]

/-! ### C10 — APROBADA and RECHAZADA are not terminal -/

/-- C10 (counterexample): ObserveFichaView applied to a ficha whose status is
APROBADA overwrites the status with OBSERVADA (and the stored observations and
reviewer), so APPROVED is not terminal and the claim fails. -/
theorem terminal_status_counterexample :
    (observeFicha ⟨Estado.APROBADA, some "todo ok", some 3, some 4⟩
        "revisar de nuevo" 1 2).estado_global = Estado.OBSERVADA ∧
    Estado.OBSERVADA ≠ Estado.APROBADA := by decide

/-- C10 (amended): no core operation enforces terminality: ObserveFichaView
unconditionally sets any ficha — in particular one in APROBADA or RECHAZADA —
to OBSERVADA, overwriting observations, reviewer and timestamp; restart via a
fresh active ficha exists but is not the only way a terminal ficha changes. -/
theorem observe_overwrites_status (f : FichaState) (notes : String)
    (reviewer now : Nat) :
    (observeFicha f notes reviewer now).estado_global = Estado.OBSERVADA ∧
    (observeFicha f notes reviewer now).observaciones_globales
      = (if notes == "" then none else some notes) ∧
    (observeFicha f notes reviewer now).revisado_por = some reviewer ∧
    (observeFicha f notes reviewer now).revisado_en = some now := by
  simp [observeFicha]

end Enfermeria

namespace Enfermeria

/-- The stored observations of finalize, as a function of the purged NOT_OK
rows and the global notes. -/
theorem finalizeReview_observaciones (L : List FieldReviewRow) (notes : String) :
    (finalizeReview L notes).observaciones =
      if (notOkRows (purgeFantasmas L)).isEmpty then
        (if notes == "" then none else some notes)
      else
        some (String.intercalate "\n"
          (if notes == "" then (notOkRows (purgeFantasmas L)).map rejectLine
           else (notOkRows (purgeFantasmas L)).map rejectLine ++
             ["", "Comentario general: " ++ notes])) := by
  simp only [finalizeReview]
  by_cases h : (notOkRows (purgeFantasmas L)).isEmpty <;> simp [h]

/-- The stored pair (estado, observaciones) depends only on the purged NOT_OK
rows and the supplied notes. -/
theorem finalizeReview_congr (L1 L2 : List FieldReviewRow) (notes : String)
    (h : notOkRows (purgeFantasmas L1) = notOkRows (purgeFantasmas L2)) :
    (finalizeReview L1 notes).estado = (finalizeReview L2 notes).estado ∧
    (finalizeReview L1 notes).observaciones = (finalizeReview L2 notes).observaciones := by
  rw [finalizeReview_estado, finalizeReview_estado,
    finalizeReview_observaciones, finalizeReview_observaciones, h]
  exact ⟨rfl, rfl⟩

/-! ### C3 — finalize is idempotent and a pure function of the NOT_OK rows -/

/-- C3: finalizing twice in a row with no ledger mutation in between — the
second call runs on the ledger the first call leaves behind — stores the same
(estado, observaciones) both times, and the stored pair is a pure function of
the ledger's REVISADO_NO_OK rows plus the supplied global notes: two ledgers
with the same NOT_OK rows finalize identically. -/
theorem finalize_idempotent_pure (L1 L2 : List FieldReviewRow) (notes : String)
    (h : notOkRows L1 = notOkRows L2) :
    ((finalizeReview (finalizeReview L1 notes).ledger notes).estado
        = (finalizeReview L1 notes).estado ∧
      (finalizeReview (finalizeReview L1 notes).ledger notes).observaciones
        = (finalizeReview L1 notes).observaciones) ∧
    ((finalizeReview L1 notes).estado = (finalizeReview L2 notes).estado ∧
      (finalizeReview L1 notes).observaciones = (finalizeReview L2 notes).observaciones) := by
  constructor
  · apply finalizeReview_congr
    rw [finalizeReview_ledger, purgeFantasmas_idem]
  · apply finalizeReview_congr
    rw [notOkRows_purgeFantasmas, notOkRows_purgeFantasmas, h]

/-- C3 (witness): two concrete ledgers with the same NOT_OK rows finalize
identically, and refinalizing the stored ledger repeats the outcome. -/
theorem finalize_idempotent_pure_witness :
    (notOkRows [⟨"Generales", "rut", "REVISADO_NO_OK", "ilegible"⟩,
        ⟨"Generales", "nombre_legal", "REVISADO_OK", ""⟩]
      = notOkRows [⟨"Generales", "rut", "REVISADO_NO_OK", "ilegible"⟩]) ∧
    (((finalizeReview (finalizeReview [⟨"Generales", "rut", "REVISADO_NO_OK", "ilegible"⟩,
          ⟨"Generales", "nombre_legal", "REVISADO_OK", ""⟩] "ojo").ledger "ojo").estado
        = (finalizeReview [⟨"Generales", "rut", "REVISADO_NO_OK", "ilegible"⟩,
          ⟨"Generales", "nombre_legal", "REVISADO_OK", ""⟩] "ojo").estado ∧
      (finalizeReview (finalizeReview [⟨"Generales", "rut", "REVISADO_NO_OK", "ilegible"⟩,
          ⟨"Generales", "nombre_legal", "REVISADO_OK", ""⟩] "ojo").ledger "ojo").observaciones
        = (finalizeReview [⟨"Generales", "rut", "REVISADO_NO_OK", "ilegible"⟩,
          ⟨"Generales", "nombre_legal", "REVISADO_OK", ""⟩] "ojo").observaciones) ∧
    ((finalizeReview [⟨"Generales", "rut", "REVISADO_NO_OK", "ilegible"⟩,
          ⟨"Generales", "nombre_legal", "REVISADO_OK", ""⟩] "ojo").estado
        = (finalizeReview [⟨"Generales", "rut", "REVISADO_NO_OK", "ilegible"⟩] "ojo").estado ∧
      (finalizeReview [⟨"Generales", "rut", "REVISADO_NO_OK", "ilegible"⟩,
          ⟨"Generales", "nombre_legal", "REVISADO_OK", ""⟩] "ojo").observaciones
        = (finalizeReview [⟨"Generales", "rut", "REVISADO_NO_OK", "ilegible"⟩] "ojo").observaciones)) :=
  ⟨by decide,
   finalize_idempotent_pure [⟨"Generales", "rut", "REVISADO_NO_OK", "ilegible"⟩,
      ⟨"Generales", "nombre_legal", "REVISADO_OK", ""⟩]
    [⟨"Generales", "rut", "REVISADO_NO_OK", "ilegible"⟩] "ojo" (by decide)⟩

end Enfermeria

namespace Enfermeria

/-! ### Helper lemmas about the field-review upsert -/

/-- Replacing the keyed row and then filtering for the key yields exactly the
new row, provided the keys were unique and the key was present. -/
theorem filter_map_replace (t : List FieldReviewRow) (row : FieldReviewRow)
    (hnd : (t.map (fun r => r.field_key)).Nodup)
    (hmem : t.any (fun r => r.field_key == row.field_key) = true) :
    (t.map (fun r => if r.field_key == row.field_key then row else r)).filter
      (fun r => r.field_key == row.field_key) = [row] := by
  induction t with
  | nil => simp at hmem
  | cons a t ih =>
    rw [List.map_cons, List.nodup_cons] at hnd
    by_cases ha : a.field_key == row.field_key
    · have htail : ∀ r ∈ t, ¬ ((r.field_key == row.field_key) = true) := by
        intro r hr hkey
        apply hnd.1
        have h1 : r.field_key = row.field_key := by simpa using hkey
        have h2 : a.field_key = row.field_key := by simpa using ha
        rw [h2, ← h1]
        exact List.mem_map_of_mem _ hr
      have hmap : t.map (fun r => if r.field_key == row.field_key then row else r) = t := by
        conv_rhs => rw [← List.map_id t]
        apply List.map_congr_left
        intro r hr
        simp [htail r hr]
      simp only [List.map_cons, ha, if_pos]
      rw [List.filter_cons_of_pos (by simp), hmap,
        List.filter_eq_nil_iff.mpr htail]
    · have hmem' : t.any (fun r => r.field_key == row.field_key) = true := by
        rcases List.any_eq_true.mp hmem with ⟨r, hr, hkey⟩
        rcases List.mem_cons.mp hr with h | h
        · exact absurd (h ▸ hkey) ha
        · exact List.any_eq_true.mpr ⟨r, h, hkey⟩
      simp only [List.map_cons, ha, if_neg, Bool.not_eq_true]
      rw [List.filter_cons_of_neg (by simpa using ha)]
      exact ih hnd.2 hmem'

/-- Upserting keeps the keys unique. -/
theorem updateOrCreate_keys_nodup (l : List FieldReviewRow) (row : FieldReviewRow)
    (hnd : (l.map (fun r => r.field_key)).Nodup) :
    ((updateOrCreate l row).map (fun r => r.field_key)).Nodup := by
  unfold updateOrCreate
  by_cases h : l.any (fun r => r.field_key == row.field_key)
  · have hkeys : (l.map (fun r => if r.field_key == row.field_key then row else r)).map
        (fun r => r.field_key) = l.map (fun r => r.field_key) := by
      rw [List.map_map]
      apply List.map_congr_left
      intro r _
      by_cases hk : r.field_key == row.field_key
      · have heq : r.field_key = row.field_key := by simpa using hk
        simp [Function.comp_apply, hk, heq]
      · have hne : ¬ r.field_key = row.field_key := by simpa using hk
        simp [Function.comp_apply, hk, hne]
    simp only [h, if_pos]
    rw [hkeys]
    exact hnd
  · have hnot : row.field_key ∉ l.map (fun r => r.field_key) := by
      intro hmem
      rcases List.mem_map.mp hmem with ⟨r, hr, hkey⟩
      exact h (List.any_eq_true.mpr ⟨r, hr, by simp [hkey]⟩)
    simp only [h, if_neg, Bool.not_eq_true, List.map_append, List.map_cons,
      List.map_nil]
    rw [List.nodup_append]
    refine ⟨hnd, List.nodup_singleton _, ?_⟩
    intro a ha hb
    rw [List.mem_singleton] at hb
    exact hnot (hb ▸ ha)

/-- Upserting and then filtering for the key yields exactly the new row. -/
theorem updateOrCreate_filter_self (l : List FieldReviewRow) (row : FieldReviewRow)
    (hnd : (l.map (fun r => r.field_key)).Nodup) :
    (updateOrCreate l row).filter (fun r => r.field_key == row.field_key) = [row] := by
  unfold updateOrCreate
  by_cases h : l.any (fun r => r.field_key == row.field_key)
  · simp only [h, if_pos]
    exact filter_map_replace l row hnd h
  · have hnone : l.filter (fun r => r.field_key == row.field_key) = [] := by
      rw [List.filter_eq_nil_iff]
      intro r hr hkey
      exact h (List.any_eq_true.mpr ⟨r, hr, hkey⟩)
    simp only [h, if_neg, Bool.not_eq_true]
    rw [List.filter_append, hnone]
    simp

end Enfermeria

namespace Enfermeria

/-! ### C8 — record_field_decision upserts by (ficha, field_key) -/

/-- C8: a successful FieldReviewAPI call upserts keyed by (ficha, field_key):
afterwards exactly one ledger row carries that key, and it holds the latest
section, the latest status, and notes that are kept only for REVISADO_NO_OK —
an OK decision stores empty notes, clearing whatever was there; key uniqueness
is preserved. -/
theorem fieldReviewPost_upsert (ledger : List FieldReviewRow)
    (sec key status notes : String) (l2 : List FieldReviewRow)
    (hnd : (ledger.map (fun r => r.field_key)).Nodup)
    (hok : fieldReviewPost ledger sec key status notes = Except.ok l2) :
    (l2.filter (fun r => r.field_key == key)).length = 1 ∧
    (∀ r ∈ l2, r.field_key = key →
      r.sectionLabel = sec ∧ r.status = status ∧
      r.notes = (if status == "REVISADO_NO_OK" then notes else "")) ∧
    (l2.map (fun r => r.field_key)).Nodup := by
  unfold fieldReviewPost at hok
  by_cases hval : sec == "" || key == "" ||
      !(status == "REVISADO_OK" || status == "REVISADO_NO_OK")
  · rw [if_pos hval] at hok
    exact absurd hok (by simp)
  · rw [if_neg hval] at hok
    have hl2 : l2 = updateOrCreate ledger
        { sectionLabel := sec, field_key := key, status := status,
          notes := if status == "REVISADO_NO_OK" then notes else "" } := by
      injection hok with h1
      exact h1.symm
    subst hl2
    have hfil := updateOrCreate_filter_self ledger
      { sectionLabel := sec, field_key := key, status := status,
        notes := if status == "REVISADO_NO_OK" then notes else "" } hnd
    refine ⟨by rw [hfil]; rfl, ?_, updateOrCreate_keys_nodup _ _ hnd⟩
    intro r hr hkey
    have hrmem : r ∈ (updateOrCreate ledger
        { sectionLabel := sec, field_key := key, status := status,
          notes := if status == "REVISADO_NO_OK" then notes else "" }).filter
        (fun q => q.field_key == key) :=
      List.mem_filter.mpr ⟨hr, by simp [hkey]⟩
    rw [hfil, List.mem_singleton] at hrmem
    rw [hrmem]
    exact ⟨rfl, rfl, rfl⟩

/-- C8 (witness): an OK decision on an already-reviewed key overwrites the row
and clears the notes; hypotheses discharged on a concrete one-row ledger. -/
theorem fieldReviewPost_upsert_witness :
    (([⟨"Generales", "rut", "REVISADO_NO_OK", "ilegible"⟩] :
        List FieldReviewRow).map (fun r => r.field_key)).Nodup ∧
    fieldReviewPost [⟨"Generales", "rut", "REVISADO_NO_OK", "ilegible"⟩]
        "Generales" "rut" "REVISADO_OK" "da igual"
      = Except.ok [⟨"Generales", "rut", "REVISADO_OK", ""⟩] ∧
    ((([⟨"Generales", "rut", "REVISADO_OK", ""⟩] : List FieldReviewRow).filter
        (fun r => r.field_key == "rut")).length = 1 ∧
      (∀ r ∈ ([⟨"Generales", "rut", "REVISADO_OK", ""⟩] : List FieldReviewRow),
        r.field_key = "rut" →
        r.sectionLabel = "Generales" ∧ r.status = "REVISADO_OK" ∧
        r.notes = (if ("REVISADO_OK" : String) == "REVISADO_NO_OK" then "da igual" else "")) ∧
      (([⟨"Generales", "rut", "REVISADO_OK", ""⟩] : List FieldReviewRow).map
        (fun r => r.field_key)).Nodup) :=
  ⟨by decide, by rfl,
   fieldReviewPost_upsert [⟨"Generales", "rut", "REVISADO_NO_OK", "ilegible"⟩]
     "Generales" "rut" "REVISADO_OK" "da igual"
     [⟨"Generales", "rut", "REVISADO_OK", ""⟩] (by decide) (by rfl)⟩

end Enfermeria

namespace Enfermeria

/-! ### Helper lemmas about the ficha lifecycle -/

/-- Unfolding of countActive on a cons cell. -/
theorem countActive_cons (a : FichaRow) (t : List FichaRow) :
    countActive (a :: t) = (if a.is_activa then 1 else 0) + countActive t := by
  by_cases h : a.is_activa <;>
    simp [countActive, List.filter_cons, h, Nat.add_comm]

/-- When the kept id does not occur, every row ends up inactive. -/
theorem countActive_deactivateOthers_zero (t : List FichaRow) (k : Nat)
    (hk : k ∉ t.map (fun r => r.id)) :
    countActive (deactivateOthers t k) = 0 := by
  induction t with
  | nil => rfl
  | cons a t ih =>
    rw [List.map_cons, List.mem_cons] at hk
    push_neg at hk
    have hne : ¬ (a.id == k) = true := by simp [Ne.symm hk.1]
    have : deactivateOthers (a :: t) k =
        (if !(a.id == k) && a.is_activa then { a with is_activa := false } else a) ::
          deactivateOthers t k := rfl
    rw [this, countActive_cons, ih hk.2]
    by_cases ha : a.is_activa <;> simp [hne, ha]

/-- Deactivating the other rows leaves at most one active row when ids are
unique. -/
theorem countActive_deactivateOthers_le (s : List FichaRow) (k : Nat)
    (hnd : (s.map (fun r => r.id)).Nodup) :
    countActive (deactivateOthers s k) ≤ 1 := by
  induction s with
  | nil => simp [deactivateOthers, countActive]
  | cons a t ih =>
    rw [List.map_cons, List.nodup_cons] at hnd
    have hstep : deactivateOthers (a :: t) k =
        (if !(a.id == k) && a.is_activa then { a with is_activa := false } else a) ::
          deactivateOthers t k := rfl
    rw [hstep, countActive_cons]
    by_cases hk : (a.id == k) = true
    · have haid : a.id = k := by simpa using hk
      have hz : countActive (deactivateOthers t k) = 0 :=
        countActive_deactivateOthers_zero t k (haid ▸ hnd.1)
      rw [hz]
      by_cases ha : a.is_activa <;> simp [hk, ha]
    · by_cases ha : a.is_activa
      · have hcond : (!(a.id == k) && a.is_activa) = true := by
          simp only [Bool.and_eq_true, Bool.not_eq_true']
          exact ⟨by simpa using hk, ha⟩
        rw [if_pos hcond]
        simpa using ih hnd.2
      · have ha' : a.is_activa = false := by simpa using ha
        rw [if_neg (by simp [ha'])]
        simpa [ha'] using ih hnd.2

/-- The ids of the rows are untouched by deactivation. -/
theorem ids_deactivateOthers (s : List FichaRow) (k : Nat) :
    (deactivateOthers s k).map (fun r => r.id) = s.map (fun r => r.id) := by
  unfold deactivateOthers
  rw [List.map_map]
  apply List.map_congr_left
  intro r _
  simp only [Function.comp_apply]
  split <;> rfl

/-- The ids after an upsert: unchanged when the id was present, the id
appended otherwise. -/
theorem ids_upsertFicha (s : List FichaRow) (f : FichaRow) :
    ((upsertFicha s f).map (fun r => r.id) = s.map (fun r => r.id) ∧
      s.any (fun r => r.id == f.id) = true) ∨
    ((upsertFicha s f).map (fun r => r.id) = s.map (fun r => r.id) ++ [f.id] ∧
      f.id ∉ s.map (fun r => r.id)) := by
  unfold upsertFicha
  by_cases h : s.any (fun r => r.id == f.id)
  · left
    refine ⟨?_, h⟩
    simp only [h, if_pos]
    rw [List.map_map]
    apply List.map_congr_left
    intro r _
    by_cases hk : (r.id == f.id) = true
    · have heq : r.id = f.id := by simpa using hk
      simp [Function.comp_apply, hk, heq]
    · have hne : ¬ r.id = f.id := by simpa using hk
      simp [Function.comp_apply, hk, hne]
  · right
    refine ⟨?_, ?_⟩
    · simp [h]
    · intro hmem
      rcases List.mem_map.mp hmem with ⟨r, hr, hid⟩
      exact h (List.any_eq_true.mpr ⟨r, hr, by simp [hid]⟩)

/-- Upserting keeps the ids unique. -/
theorem nodup_ids_upsertFicha (s : List FichaRow) (f : FichaRow)
    (hnd : (s.map (fun r => r.id)).Nodup) :
    ((upsertFicha s f).map (fun r => r.id)).Nodup := by
  rcases ids_upsertFicha s f with ⟨heq, _⟩ | ⟨heq, hnot⟩
  · rw [heq]; exact hnd
  · rw [heq, List.nodup_append]
    refine ⟨hnd, List.nodup_singleton _, ?_⟩
    intro a ha hb
    rw [List.mem_singleton] at hb
    exact hnot (hb ▸ ha)

/-- Saving a row flagged active leaves at most one active row. -/
theorem countActive_fichaSave_le (s : List FichaRow) (f : FichaRow)
    (hf : f.is_activa = true) (hnd : (s.map (fun r => r.id)).Nodup) :
    countActive (fichaSave s f) ≤ 1 := by
  unfold fichaSave
  simp only [hf, if_pos]
  exact countActive_deactivateOthers_le _ _ (nodup_ids_upsertFicha s f hnd)

/-- Saving keeps the ids unique. -/
theorem nodup_ids_fichaSave (s : List FichaRow) (f : FichaRow)
    (hnd : (s.map (fun r => r.id)).Nodup) :
    ((fichaSave s f).map (fun r => r.id)).Nodup := by
  unfold fichaSave
  by_cases hf : f.is_activa
  · simp only [hf, if_pos]
    rw [ids_deactivateOthers]
    exact nodup_ids_upsertFicha s f hnd
  · simp only [hf, Bool.false_eq_true, if_false]
    exact nodup_ids_upsertFicha s f hnd

/-- The lifecycle invariant: unique primary keys and at most one active row. -/
def FichaInv (s : List FichaRow) : Prop :=
  (s.map (fun r => r.id)).Nodup ∧ countActive s ≤ 1

/-- Every lifecycle call preserves the invariant. -/
theorem fichaInv_applyOp (s : List FichaRow) (op : FichaOp)
    (h : FichaInv s) : FichaInv (applyOp s op) := by
  cases op with
  | getOrCreate =>
    unfold applyOp
    by_cases hact : s.any (fun r => r.is_activa)
    · simpa [hact] using h
    · simp only [hact, Bool.false_eq_true, if_false]
      exact ⟨nodup_ids_fichaSave _ _ h.1, countActive_fichaSave_le _ _ rfl h.1⟩
  | activate fid =>
    unfold applyOp
    exact ⟨nodup_ids_fichaSave _ _ h.1, countActive_fichaSave_le _ _ rfl h.1⟩

/-- Every sequence of lifecycle calls preserves the invariant. -/
theorem fichaInv_runOps (s : List FichaRow) (ops : List FichaOp)
    (h : FichaInv s) : FichaInv (runOps s ops) := by
  induction ops generalizing s with
  | nil => exact h
  | cons op ops ih => exact ih _ (fichaInv_applyOp s op h)

/-! ### C2 — at most one active ficha per student -/

/-- C2: starting from any row set of one student with unique primary keys and
at most one active ficha (in particular from no fichas at all), every sequence
of get_or_create_active and activate calls leaves at most one ficha with
is_activa = true; since the sequence is arbitrary, the bound holds after every
call of any sequence settles. -/
theorem single_active_ficha (init : List FichaRow) (ops : List FichaOp)
    (hnd : (init.map (fun r => r.id)).Nodup)
    (hact : countActive init ≤ 1) :
    countActive (runOps init ops) ≤ 1 :=
  (fichaInv_runOps init ops ⟨hnd, hact⟩).2

/-- C2 (witness): a concrete history — lazy creation, activation of an old
row, re-creation — starting from one inactive ficha. -/
theorem single_active_ficha_witness :
    (([⟨7, false⟩] : List FichaRow).map (fun r => r.id)).Nodup ∧
    countActive [⟨7, false⟩] ≤ 1 ∧
    countActive (runOps [⟨7, false⟩]
      [FichaOp.getOrCreate, FichaOp.activate 7, FichaOp.getOrCreate,
       FichaOp.activate 8]) ≤ 1 :=
  ⟨by decide, by decide,
   single_active_ficha [⟨7, false⟩]
     [FichaOp.getOrCreate, FichaOp.activate 7, FichaOp.getOrCreate,
      FichaOp.activate 8] (by decide) (by decide)⟩

end Enfermeria

namespace Enfermeria

/-! ### Helper lemmas about the document replacement policy -/

/-- Every existing document id is bounded by the fold that feeds freshDocId. -/
theorem id_le_fold_docs (docs : List DocRow) (d : DocRow) (hd : d ∈ docs) :
    d.id ≤ docs.foldr (fun q m => max q.id m) 0 := by
  induction docs with
  | nil => cases hd
  | cons a t ih =>
    rcases List.mem_cons.mp hd with h | h
    · subst h
      exact le_max_left _ _
    · exact le_trans (ih h) (le_max_right _ _)

/-- A freshly allocated document id is strictly larger than every existing
id. -/
theorem id_lt_freshDocId (docs : List DocRow) (d : DocRow) (hd : d ∈ docs) :
    d.id < freshDocId docs :=
  Nat.lt_succ_of_le (id_le_fold_docs docs d hd)

/-- Filtering for one item after discarding another item changes nothing. -/
theorem filter_item_of_excluded (l : List DocRow) (a b : String) (hne : b ≠ a) :
    (l.filter (fun d => !(d.item == a))).filter (fun d => d.item == b)
      = l.filter (fun d => d.item == b) := by
  induction l with
  | nil => rfl
  | cons d t ih =>
    by_cases hda : (d.item == a) = true
    · have hdb : ¬ (d.item == b) = true := by
        have : d.item = a := by simpa using hda
        simp [this, Ne.symm hne]
      rw [List.filter_cons_of_neg (by simp [hda]), ih,
        List.filter_cons_of_neg (by simpa using hdb)]
    · rw [List.filter_cons_of_pos (by simpa using hda)]
      by_cases hdb : (d.item == b) = true
      · rw [List.filter_cons_of_pos (by simpa using hdb),
          List.filter_cons_of_pos (by simpa using hdb), ih]
      · rw [List.filter_cons_of_neg (by simpa using hdb),
          List.filter_cons_of_neg (by simpa using hdb), ih]

/-- Creating a document leaves exactly one row in its slot. -/
theorem countItem_docCreate_self (s : DocState) (it sha : String) :
    countItem (docCreateWithBlob s it sha) it = 1 := by
  unfold countItem docCreateWithBlob
  rw [List.filter_append]
  have h1 : (s.docs.filter (fun d => !(d.item == it))).filter
      (fun d => d.item == it) = [] := by
    rw [List.filter_eq_nil_iff]
    intro d hd
    have := (List.mem_filter.mp hd).2
    simpa using this
  rw [h1]
  simp

/-- Creating a document does not touch the population of other slots. -/
theorem countItem_docCreate_other (s : DocState) (it sha j : String)
    (hne : j ≠ it) :
    countItem (docCreateWithBlob s it sha) j = countItem s j := by
  unfold countItem docCreateWithBlob
  rw [List.filter_append, filter_item_of_excluded s.docs it j hne]
  have h2 : ([(⟨freshDocId s.docs, it, "ADJUNTADO"⟩ : DocRow)].filter
      (fun d => d.item == j)) = [] := by
    rw [List.filter_eq_nil_iff]
    intro d hd
    rw [List.mem_singleton] at hd
    subst hd
    simp [Ne.symm hne]
  rw [h2]
  simp

/-- Deleting the documents of a slot list empties each of its slots. -/
theorem countItem_deleteExisting_zero (s : DocState) (items : List String)
    (it : String) (hmem : it ∈ items) :
    countItem (deleteExistingDocs s items) it = 0 := by
  unfold countItem deleteExistingDocs
  rw [List.length_eq_zero, List.filter_eq_nil_iff]
  intro d hd hit
  have hkeep := (List.mem_filter.mp hd).2
  have heq : d.item = it := by simpa using hit
  have hc : items.contains d.item = true := List.elem_iff.mpr (heq ▸ hmem)
  rw [hc] at hkeep
  simp at hkeep

/-- Attaching CI files keeps each of the two CI slots at one row at most. -/
theorem attachCiFiles_counts (files : List String) :
    ∀ (s : DocState) (idx : Nat),
      countItem s "CI_FRENTE" ≤ 1 → countItem s "CI_REVERSO" ≤ 1 →
      countItem (attachCiFiles s files idx) "CI_FRENTE" ≤ 1 ∧
      countItem (attachCiFiles s files idx) "CI_REVERSO" ≤ 1 := by
  induction files with
  | nil => exact fun s idx h1 h2 => ⟨h1, h2⟩
  | cons f rest ih =>
    intro s idx h1 h2
    simp only [attachCiFiles]
    by_cases hidx : (idx == 0) = true
    · rw [if_pos hidx]
      apply ih
      · rw [countItem_docCreate_self]
      · rw [countItem_docCreate_other s "CI_FRENTE" f "CI_REVERSO" (by decide)]
        exact h2
    · rw [if_neg hidx]
      apply ih
      · rw [countItem_docCreate_other s "CI_REVERSO" f "CI_FRENTE" (by decide)]
        exact h1
      · rw [countItem_docCreate_self]

/-- The CI count splits into the two slot counts. -/
theorem ciCount_split (s : DocState) :
    ciCount s = countItem s "CI_FRENTE" + countItem s "CI_REVERSO" := by
  unfold ciCount countItem
  induction s.docs with
  | nil => rfl
  | cons d t ih =>
    by_cases hf : (d.item == "CI_FRENTE") = true
    · have hr : ¬ (d.item == "CI_REVERSO") = true := by
        have heq : d.item = "CI_FRENTE" := by simpa using hf
        simp [heq]
      rw [List.filter_cons_of_pos (by simp [hf]),
        List.filter_cons_of_pos (by simpa using hf),
        List.filter_cons_of_neg (by simpa using hr)]
      simp only [List.length_cons, ih]
      omega
    · by_cases hr : (d.item == "CI_REVERSO") = true
      · rw [List.filter_cons_of_pos (by simp [hf, hr]),
          List.filter_cons_of_neg (by simpa using hf),
          List.filter_cons_of_pos (by simpa using hr)]
        simp only [List.length_cons, ih]
        omega
      · rw [List.filter_cons_of_neg (by simp [hf, hr]),
          List.filter_cons_of_neg (by simpa using hf),
          List.filter_cons_of_neg (by simpa using hr), ih]

end Enfermeria

namespace Enfermeria

/-! ### C6 — document replacement on re-upload -/

/-- C6: creating a document for a (ficha, slot) that already has one deletes
the old row and its blob within the same operation: afterwards exactly one
Document row exists for that slot, and no blob in the store belongs to any
document that previously occupied the slot — the prior attachment blob is
unreachable. -/
theorem document_replacement (s : DocState) (item sha : String) :
    countItem (docCreateWithBlob s item sha) item = 1 ∧
    (∀ d0 ∈ s.docs, d0.item = item →
      ∀ b ∈ (docCreateWithBlob s item sha).blobs, b.document_id ≠ d0.id) := by
  refine ⟨countItem_docCreate_self s item sha, ?_⟩
  intro d0 hd0 hitem b hb
  simp only [docCreateWithBlob, List.mem_append] at hb
  rcases hb with hold | hnew
  · have hkeep := (List.mem_filter.mp hold).2
    intro heq
    have hdoomed : ((s.docs.filter (fun d => d.item == item)).map
        (fun d => d.id)).contains b.document_id = true := by
      apply List.elem_iff.mpr
      rw [heq]
      exact List.mem_map_of_mem _ (List.mem_filter.mpr ⟨hd0, by simp [hitem]⟩)
    rw [hdoomed] at hkeep
    simp at hkeep
  · rw [List.mem_singleton] at hnew
    subst hnew
    exact Nat.ne_of_gt (id_lt_freshDocId s.docs d0 hd0)

/-- C6 (witness): replacing the only CI-front document of a concrete state;
the slot hypothesis of the theorem is discharged on the old row. -/
theorem document_replacement_witness :
    (countItem (docCreateWithBlob ⟨[⟨1, "CI_FRENTE", "ADJUNTADO"⟩], [⟨1, "old"⟩]⟩
        "CI_FRENTE" "new") "CI_FRENTE" = 1 ∧
      (∀ d0 ∈ ([⟨1, "CI_FRENTE", "ADJUNTADO"⟩] : List DocRow), d0.item = "CI_FRENTE" →
        ∀ b ∈ (docCreateWithBlob ⟨[⟨1, "CI_FRENTE", "ADJUNTADO"⟩], [⟨1, "old"⟩]⟩
          "CI_FRENTE" "new").blobs, b.document_id ≠ d0.id)) ∧
    (⟨1, "CI_FRENTE", "ADJUNTADO"⟩ : DocRow) ∈ ([⟨1, "CI_FRENTE", "ADJUNTADO"⟩] : List DocRow) ∧
    (docCreateWithBlob ⟨[⟨1, "CI_FRENTE", "ADJUNTADO"⟩], [⟨1, "old"⟩]⟩
        "CI_FRENTE" "new").blobs = [⟨2, "new"⟩] :=
  ⟨document_replacement ⟨[⟨1, "CI_FRENTE", "ADJUNTADO"⟩], [⟨1, "old"⟩]⟩ "CI_FRENTE" "new",
   by decide, by decide⟩

/-! ### C7 — the identification-slot cap -/

/-- C7 (counterexample): with both CI slots occupied, uploading one more CI
file succeeds — the guard passes — and leaves ONE document in the CI slots,
not two, because the upload first deletes both existing CI documents; and
uploading three CI files into an empty ficha also passes the guard, ending
with two documents.  Both runs refute the claim that a third identification
attach fails and leaves exactly two documents. -/
theorem ci_third_attach_counterexample :
    saveCiRuleGuard (processCiUpload
      ⟨[⟨1, "CI_FRENTE", "ADJUNTADO"⟩, ⟨2, "CI_REVERSO", "ADJUNTADO"⟩],
       [⟨1, "h1"⟩, ⟨2, "h2"⟩]⟩ ["h3"]) = true ∧
    ciCount (processCiUpload
      ⟨[⟨1, "CI_FRENTE", "ADJUNTADO"⟩, ⟨2, "CI_REVERSO", "ADJUNTADO"⟩],
       [⟨1, "h1"⟩, ⟨2, "h2"⟩]⟩ ["h3"]) = 1 ∧
    saveCiRuleGuard (processCiUpload ⟨[], []⟩ ["a", "b", "c"]) = true ∧
    ciCount (processCiUpload ⟨[], []⟩ ["a", "b", "c"]) = 2 := by decide

/-- C7 (amended): at most two documents ever occupy the identification slots:
from any state within the cap, a CI upload — of any number of files — never
fails; it first clears both CI slots and re-attaches the files with
replacement into the two slots, so at most two CI documents remain and the
guard (which only rejects counts above two) passes. -/
theorem ci_cap_preserved (s : DocState) (files : List String)
    (h : ciCount s ≤ 2) :
    ciCount (processCiUpload s files) ≤ 2 ∧
    saveCiRuleGuard (processCiUpload s files) = true := by
  have hc : ciCount (processCiUpload s files) ≤ 2 := by
    unfold processCiUpload
    by_cases he : files.isEmpty
    · simpa [he] using h
    · simp only [he, Bool.false_eq_true, if_false]
      have h0f : countItem (deleteExistingDocs s ["CI_FRENTE", "CI_REVERSO"])
          "CI_FRENTE" = 0 :=
        countItem_deleteExisting_zero s _ _ (by decide)
      have h0r : countItem (deleteExistingDocs s ["CI_FRENTE", "CI_REVERSO"])
          "CI_REVERSO" = 0 :=
        countItem_deleteExisting_zero s _ _ (by decide)
      obtain ⟨hf, hr⟩ := attachCiFiles_counts files
        (deleteExistingDocs s ["CI_FRENTE", "CI_REVERSO"]) 0
        (by rw [h0f]; exact Nat.zero_le 1) (by rw [h0r]; exact Nat.zero_le 1)
      rw [ciCount_split]
      omega
  refine ⟨hc, ?_⟩
  have hngt : ¬ (ciCount (processCiUpload s files) > 2) := by omega
  simp [saveCiRuleGuard, hngt]

/-- C7 (amended, witness): an empty upload on a full pair of CI slots keeps
the cap; the cap hypothesis is discharged on the concrete state. -/
theorem ci_cap_preserved_witness :
    ciCount (⟨[⟨1, "CI_FRENTE", "ADJUNTADO"⟩, ⟨2, "CI_REVERSO", "ADJUNTADO"⟩],
      [⟨1, "h1"⟩, ⟨2, "h2"⟩]⟩ : DocState) ≤ 2 ∧
    (ciCount (processCiUpload
        ⟨[⟨1, "CI_FRENTE", "ADJUNTADO"⟩, ⟨2, "CI_REVERSO", "ADJUNTADO"⟩],
         [⟨1, "h1"⟩, ⟨2, "h2"⟩]⟩ []) ≤ 2 ∧
      saveCiRuleGuard (processCiUpload
        ⟨[⟨1, "CI_FRENTE", "ADJUNTADO"⟩, ⟨2, "CI_REVERSO", "ADJUNTADO"⟩],
         [⟨1, "h1"⟩, ⟨2, "h2"⟩]⟩ []) = true) :=
  ⟨by decide,
   ci_cap_preserved
     ⟨[⟨1, "CI_FRENTE", "ADJUNTADO"⟩, ⟨2, "CI_REVERSO", "ADJUNTADO"⟩],
      [⟨1, "h1"⟩, ⟨2, "h2"⟩]⟩ [] (by decide)⟩

end Enfermeria
